import Mathlib

/-!
# Verification of the teaching-marketplace average-price page

Shallow embedding of `src/src/app/page.tsx`.

The page fetches a category tree, flattens it into subcategories, and for
each subcategory runs a pipeline: paginate all teacher listings for the
subcategory's code, average the per-hour prices of the matching category
entries, and post the rounded average back upstream.  Outcomes are
collected (via `Promise.all`) into an ordered result list.

Modelling choices:
* JavaScript numbers are modelled as rationals (`ℚ`); `Math.round` is
  `⌊x + 1/2⌋` (round half toward +∞), which is `Math.round`'s behaviour on
  every non-NaN double.
* `pricePerHour` is `Option ℚ`: the source guards each access with
  `typeof relevantCategory.pricePerHour === "number"`, so the runtime value
  may be absent or a non-number; `none` models that case.
* Network calls are an environment (`Env`): the catalog fetch result, a page
  service per category code, and the publish call's success predicate.
  A failed HTTP request (`!response.ok`) is `none` / `Except.error`.
* The `while (true)` pagination loop is embedded with fuel;
  `none` means the fuel ran out, i.e. the loop did not terminate within
  the given bound.  The loop also counts the page requests it issued.
-/

/-- `interface Subcategory` (id, name, code). -/
structure Subcategory where
  id : String
  name : String
  code : Nat
deriving Repr, DecidableEq

/-- `interface Category` (id, name, childrenCategories). -/
structure Category where
  id : String
  name : String
  childrenCategories : List Subcategory
deriving Repr, DecidableEq

/-- `interface TeacherCategoryInfo` (name, pricePerHour).  `pricePerHour` is
`Option ℚ` because the source checks `typeof ... === "number"` before use. -/
structure TeacherCategoryInfo where
  name : String
  pricePerHour : Option ℚ
deriving Repr, DecidableEq

/-- `interface Teacher` (id, categories). -/
structure Teacher where
  id : String
  categories : List TeacherCategoryInfo
deriving Repr, DecidableEq

/-- Outcome status: `"success" | "error"`. -/
inductive Status where
  | success
  | error
deriving Repr, DecidableEq

/-- `interface CalculationResult`. -/
structure CalculationResult where
  categoryName : String
  averagePrice : ℚ
  status : Status
  message : String
deriving Repr, DecidableEq

/-- The observable component state: `isLoading`, `results`, `error`. -/
structure AppState where
  isLoading : Bool
  results : List CalculationResult
  error : Option String
deriving Repr, DecidableEq

/-- A page service: given a page index and a page size, return the batch of
teachers (`some batch`) or fail (`none`, the `!response.ok` case). -/
def PageService : Type := Nat → Nat → Option (List Teacher)

/-- The environment of network effects the page interacts with. -/
structure Env where
  /-- Result of `fetchCategories()`: the parsed list, or the thrown
  error's message (`"Failed to fetch categories"` on a non-ok response). -/
  categories : Except String (List Category)
  /-- The `POST /search` service, per category code. -/
  pages : Nat → PageService
  /-- Whether `postAveragePrice(categoryName, averagePrice)` succeeds. -/
  publishOk : String → ℚ → Bool
  /-- Fuel bound for the unbounded pagination loop. -/
  fuel : Nat

/-- `const pageSize = 10` (line 65 of the source). -/
def pageSize : Nat := 10

/-- The `while (true)` body of `fetchAllTeachersForCategory`, with fuel.
State: current page index, accumulated teachers, number of page requests
issued so far.  Returns the accumulated teachers and the total request
count, or `none` if the fuel ran out before the loop exited.
* a failed request (`!response.ok`) breaks, returning the accumulator;
* an empty batch breaks, returning the accumulator;
* a non-empty batch is appended and the page index advances by one. -/
def fetchLoop (service : PageService) :
    Nat → Nat → List Teacher → Nat → Option (List Teacher × Nat)
  | 0, _, _, _ => none
  | fuel + 1, page, allTeachers, requests =>
    match service page pageSize with
    | none => some (allTeachers, requests + 1)
    | some teachersOnPage =>
      if teachersOnPage.isEmpty then
        some (allTeachers, requests + 1)
      else
        fetchLoop service fuel (page + 1) (allTeachers ++ teachersOnPage)
          (requests + 1)

/-- `fetchAllTeachersForCategory`: run the pagination loop from page 0 with
an empty accumulator.  The request count is instrumentation; the source
returns only the teacher list. -/
def fetchAllTeachersForCategory (service : PageService) (fuel : Nat) :
    Option (List Teacher × Nat) :=
  fetchLoop service fuel 0 [] 0

/-- Line 128: `categories.flatMap(category => category.childrenCategories || [])`. -/
def flattenSubcategories (categories : List Category) : List Subcategory :=
  categories.flatMap (·.childrenCategories)

/-- The per-teacher scan of `handleCalculatePrices` (lines 143–155):
find the first category entry whose name equals the subcategory name;
if found and its price is a number, add it to the running sum and
increment the contributing count. -/
def aggregateStep (subcategoryName : String) (acc : ℚ × Nat) (teacher : Teacher) :
    ℚ × Nat :=
  match teacher.categories.find? (fun cat => cat.name == subcategoryName) with
  | some relevantCategory =>
    match relevantCategory.pricePerHour with
    | some price => (acc.1 + price, acc.2 + 1)
    | none => acc
  | none => acc

/-- The aggregation over all teachers: returns
`(totalPrice, teachersWithPriceForCategory)`. -/
def aggregateTeachers (teachers : List Teacher) (subcategoryName : String) :
    ℚ × Nat :=
  teachers.foldl (aggregateStep subcategoryName) (0, 0)

/-- Specification-side description of which price a teacher contributes to a
subcategory: the price of the first category entry matching the name, when
that price is a number; used to compare against `aggregateTeachers`. -/
def contributedPrice (subcategoryName : String) (teacher : Teacher) : Option ℚ :=
  match teacher.categories.find? (fun cat => cat.name == subcategoryName) with
  | some relevantCategory => relevantCategory.pricePerHour
  | none => none

/-- `Math.round` on a (non-NaN) number: round half toward +∞. -/
def mathRound (x : ℚ) : ℤ := ⌊x + 1 / 2⌋

/-- Lines 157–162: the average (`sum / count` if `count > 0`, else `0`),
rounded via `Math.round(averagePrice * 100) / 100`. -/
def roundedAverage (teachers : List Teacher) (subcategoryName : String) : ℚ :=
  let totals := aggregateTeachers teachers subcategoryName
  let averagePrice : ℚ := if totals.2 > 0 then totals.1 / (totals.2 : ℚ) else 0
  (mathRound (averagePrice * 100) : ℚ) / 100

/-- The pure tail of one subcategory's task (lines 140–186), after the
teachers have been fetched: aggregate, round, publish.  The only statement
inside the `try` that throws is `postAveragePrice` (it throws
`Failed to post average price for ...` on a non-ok response), so the
source's `try`/`catch` is exactly this `if` on the publish result: the
`catch` block returns an `error` outcome with `averagePrice: 0` carrying
the thrown error's message. -/
def subcategoryOutcome (env : Env) (subcategory : Subcategory)
    (teachers : List Teacher) : CalculationResult :=
  let totals := aggregateTeachers teachers subcategory.name
  let roundedAveragePrice := roundedAverage teachers subcategory.name
  if env.publishOk subcategory.name roundedAveragePrice then
    { categoryName := subcategory.name
      averagePrice := roundedAveragePrice
      status := Status.success
      message := "Successfully posted average price of " ++
        toString roundedAveragePrice ++ " for " ++ toString totals.2 ++
        " teachers." }
  else
    { categoryName := subcategory.name
      averagePrice := 0
      status := Status.error
      message := "Failed to post average price for " ++ subcategory.name }

/-- One subcategory's task (the async closure in lines 137–187): fetch all
teachers, then run the pure tail.  `none` only when the pagination loop
exhausts its fuel (the source would loop forever there). -/
def processSubcategory (env : Env) (subcategory : Subcategory) :
    Option CalculationResult :=
  (fetchAllTeachersForCategory (env.pages subcategory.code) env.fuel).map
    (fun result => subcategoryOutcome env subcategory result.1)

/-- The rounded average a subcategory's pipeline hands to
`postAveragePrice`, when its pagination terminates. -/
def publishedPrice (env : Env) (subcategory : Subcategory) : Option ℚ :=
  (fetchAllTeachersForCategory (env.pages subcategory.code) env.fuel).map
    (fun result => roundedAverage result.1 subcategory.name)

/-- `Promise.all` over the per-subcategory tasks: settle every task, in
catalog order; diverges (`none`) iff some task diverges. -/
def settleAll (env : Env) : List Subcategory → Option (List CalculationResult)
  | [] => some []
  | subcategory :: rest =>
    match processSubcategory env subcategory, settleAll env rest with
    | some r, some rs => some (r :: rs)
    | _, _ => none

/-- `handleCalculatePrices` (lines 116–199): fetch the catalog (a thrown
error is caught and stored in `error`), flatten the subcategories, abort
with a message if either level is empty, otherwise settle all
per-subcategory tasks and store them in `results`.  `isLoading` is reset in
the `finally` block, so it is `false` in every terminating state. -/
def handleCalculatePrices (env : Env) : Option AppState :=
  match env.categories with
  | Except.error msg => some ⟨false, [], some msg⟩
  | Except.ok categories =>
    if categories.isEmpty then
      some ⟨false, [], some "No categories found."⟩
    else
      let allSubcategories := flattenSubcategories categories
      if allSubcategories.isEmpty then
        some ⟨false, [], some "No subcategories found to process."⟩
      else
        match settleAll env allSubcategories with
        | none => none
        | some settledResults => some ⟨false, settledResults, none⟩

/-! ## Lemmas about the pagination loop -/

/-- If the service answers the consecutive pages starting at `page` with the
non-empty batches `bs` and then stops (a failed request or an empty batch)
at page `page + bs.length`, the loop appends the batches in order and
issues exactly `bs.length + 1` page requests. -/
theorem fetchLoop_eq_of_batches (service : PageService) (bs : List (List Teacher)) :
    ∀ (page fuel : Nat) (acc : List Teacher) (req : Nat),
      (∀ i (hi : i < bs.length),
        service (page + i) pageSize = some (bs.get ⟨i, hi⟩) ∧ bs.get ⟨i, hi⟩ ≠ []) →
      (service (page + bs.length) pageSize = none ∨
        service (page + bs.length) pageSize = some []) →
      bs.length < fuel →
      fetchLoop service fuel page acc req =
        some (acc ++ bs.flatten, req + bs.length + 1) := by
  induction bs with
  | nil =>
    intro page fuel acc req _ hstop hfuel
    obtain ⟨f, rfl⟩ : ∃ f, fuel = f + 1 := ⟨fuel - 1, by omega⟩
    simp only [List.length_nil, Nat.add_zero] at hstop
    rcases hstop with h | h <;> simp [fetchLoop, h]
  | cons b bs ih =>
    intro page fuel acc req hbs hstop hfuel
    obtain ⟨f, rfl⟩ : ∃ f, fuel = f + 1 := ⟨fuel - 1, by omega⟩
    obtain ⟨hb, hbne⟩ := hbs 0 (by simp)
    simp only [Nat.add_zero, List.get] at hb hbne
    have hbe : b.isEmpty = false := by
      cases b with
      | nil => exact absurd rfl hbne
      | cons x xs => rfl
    have hrec := ih (page + 1) f (acc ++ b) (req + 1)
      (fun i hi => by
        have := hbs (i + 1) (by simpa using Nat.succ_lt_succ hi)
        rwa [show page + (i + 1) = page + 1 + i from by omega,
          List.get_cons_succ] at this)
      (by rwa [show page + 1 + bs.length = page + (b :: bs).length from by
        simp; omega] )
      (by simp at hfuel; omega)
    simp only [fetchLoop, hb, hbe, Bool.false_eq_true, if_false, hrec]
    simp only [List.flatten_cons, ← List.append_assoc]
    congr 2
    simp
    omega

/-- If some page request fails or returns an empty batch, the loop
terminates within that many pages of fuel, whatever happened before. -/
theorem fetchLoop_terminates (service : PageService) (k : Nat) :
    ∀ (page : Nat) (acc : List Teacher) (req : Nat),
      (service (page + k) pageSize = none ∨
        service (page + k) pageSize = some []) →
      ∃ result, fetchLoop service (k + 1) page acc req = some result := by
  induction k with
  | zero =>
    intro page acc req hstop
    simp only [Nat.add_zero] at hstop
    rcases hstop with h | h <;> exact ⟨(acc, req + 1), by simp [fetchLoop, h]⟩
  | succ k ih =>
    intro page acc req hstop
    cases hsp : service page pageSize with
    | none => exact ⟨(acc, req + 1), by simp [fetchLoop, hsp]⟩
    | some batch =>
      cases batch with
      | nil => exact ⟨(acc, req + 1), by simp [fetchLoop, hsp]⟩
      | cons x xs =>
        obtain ⟨r, hr⟩ := ih (page + 1) (acc ++ (x :: xs)) (req + 1)
          (by rwa [show page + 1 + k = page + (k + 1) from by omega])
        exact ⟨r, by simpa [fetchLoop, hsp] using hr⟩

/-! ## Lemmas about the per-subcategory pipeline and the orchestrator -/

/-- Every outcome the pipeline's pure tail produces is labelled with the
subcategory's name. -/
theorem subcategoryOutcome_categoryName (env : Env) (sub : Subcategory)
    (teachers : List Teacher) :
    (subcategoryOutcome env sub teachers).categoryName = sub.name := by
  simp only [subcategoryOutcome]
  split <;> rfl

/-- Characterization of one pipeline's outcome by the publish call's
verdict on the price it is handed. -/
theorem processSubcategory_char (env : Env) (sub : Subcategory) (p : ℚ)
    (r : CalculationResult)
    (hp : publishedPrice env sub = some p)
    (hr : processSubcategory env sub = some r) :
    (env.publishOk sub.name p = true →
      r.status = Status.success ∧ r.averagePrice = p) ∧
    (env.publishOk sub.name p = false →
      r = ⟨sub.name, 0, Status.error,
        "Failed to post average price for " ++ sub.name⟩) := by
  unfold publishedPrice at hp
  unfold processSubcategory at hr
  rw [Option.map_eq_some'] at hp hr
  obtain ⟨a, ha, hpa⟩ := hp
  obtain ⟨b, hb, hrb⟩ := hr
  rw [ha] at hb
  injection hb with hb
  subst hb
  subst hrb
  subst hpa
  constructor <;> intro hok <;> simp [subcategoryOutcome, hok]

/-- A settled collection has one entry per subcategory, in order, each
labelled with that subcategory's name. -/
theorem settleAll_map_categoryName (env : Env) (subs : List Subcategory) :
    ∀ rs, settleAll env subs = some rs →
      rs.map (fun r => r.categoryName) = subs.map (fun s => s.name) := by
  induction subs with
  | nil =>
    intro rs h
    simp only [settleAll] at h
    injection h with h
    subst h
    rfl
  | cons s ss ih =>
    intro rs h
    simp only [settleAll] at h
    cases hp : processSubcategory env s with
    | none => rw [hp] at h; exact absurd h (by simp)
    | some r =>
      cases hs : settleAll env ss with
      | none => rw [hp, hs] at h; exact absurd h (by simp)
      | some rs' =>
        rw [hp, hs] at h
        injection h with h
        subst h
        have hname : r.categoryName = s.name := by
          unfold processSubcategory at hp
          rw [Option.map_eq_some'] at hp
          obtain ⟨a, _, hra⟩ := hp
          rw [← hra]
          exact subcategoryOutcome_categoryName env s a.1
        simp [hname, ih rs' hs]

/-- A settled collection is index-aligned with the subcategory list: the
`i`-th entry is the settled outcome of the `i`-th subcategory. -/
theorem settleAll_get (env : Env) (subs : List Subcategory) :
    ∀ rs, settleAll env subs = some rs →
      rs.length = subs.length ∧
      ∀ i (hi : i < subs.length) (hi' : i < rs.length),
        processSubcategory env (subs.get ⟨i, hi⟩) = some (rs.get ⟨i, hi'⟩) := by
  induction subs with
  | nil =>
    intro rs h
    simp only [settleAll] at h
    injection h with h
    subst h
    exact ⟨rfl, fun i hi => absurd hi (by simp)⟩
  | cons s ss ih =>
    intro rs h
    simp only [settleAll] at h
    cases hp : processSubcategory env s with
    | none => rw [hp] at h; exact absurd h (by simp)
    | some r =>
      cases hs : settleAll env ss with
      | none => rw [hp, hs] at h; exact absurd h (by simp)
      | some rs' =>
        rw [hp, hs] at h
        injection h with h
        subst h
        obtain ⟨hlen, hget⟩ := ih rs' hs
        refine ⟨by simp [hlen], ?_⟩
        intro i hi hi'
        cases i with
        | zero => simpa using hp
        | succ n =>
          simp only [List.get_cons_succ]
          exact hget n (by simpa using hi) (by simpa using hi')

/-- When the catalog fetch succeeded and the flattened subcategory list is
non-empty, a terminating run settles all subcategories and stores them,
with no top-level error and the busy flag back to idle. -/
theorem handleCalculatePrices_ok (env : Env) (cats : List Category)
    (st : AppState)
    (hcats : env.categories = Except.ok cats)
    (hsubs : flattenSubcategories cats ≠ [])
    (hrun : handleCalculatePrices env = some st) :
    ∃ rs, settleAll env (flattenSubcategories cats) = some rs ∧
      st = ⟨false, rs, none⟩ := by
  unfold handleCalculatePrices at hrun
  have hc : cats.isEmpty = false := by
    cases cats with
    | nil => simp [flattenSubcategories] at hsubs
    | cons c cs => rfl
  have hs : (flattenSubcategories cats).isEmpty = false := by
    cases hfl : flattenSubcategories cats with
    | nil => exact absurd hfl hsubs
    | cons x xs => rfl
  cases hset : settleAll env (flattenSubcategories cats) with
  | none =>
    rw [hcats] at hrun
    simp [hc, hs, hset] at hrun
  | some rs =>
    rw [hcats] at hrun
    simp [hc, hs, hset] at hrun
    exact ⟨rs, rfl, hrun.symm⟩

/-! ## Lemmas about the aggregation -/

/-- Folding the per-teacher scan over any starting accumulator adds the sum
and the count of the contributed prices. -/
theorem aggregateStep_foldl (subName : String) (ts : List Teacher) :
    ∀ acc : ℚ × Nat,
      ts.foldl (aggregateStep subName) acc =
        (acc.1 + (ts.filterMap (contributedPrice subName)).sum,
         acc.2 + (ts.filterMap (contributedPrice subName)).length) := by
  induction ts with
  | nil => intro acc; simp
  | cons t ts ih =>
    intro acc
    simp only [List.foldl_cons, List.filterMap_cons]
    cases hf : t.categories.find? (fun cat => cat.name == subName) with
    | none =>
      simp [aggregateStep, contributedPrice, hf, ih]
    | some c =>
      cases hp : c.pricePerHour with
      | none =>
        simp [aggregateStep, contributedPrice, hf, hp, ih]
      | some price =>
        simp only [aggregateStep, contributedPrice, hf, hp, ih, List.sum_cons,
          List.length_cons, Prod.mk.injEq]
        constructor
        · ring
        · omega

/-! ## Claim theorems -/

/-- C6: If the catalog fetch fails, the run aborts before any
per-subcategory work: the result collection stays empty, exactly the one
thrown error message is observable, and the busy flag returns to idle. -/
theorem catalog_failure_aborts_run (env : Env) (msg : String)
    (h : env.categories = Except.error msg) :
    handleCalculatePrices env = some ⟨false, [], some msg⟩ := by
  unfold handleCalculatePrices
  rw [h]

def envC6 : Env :=
  { categories := Except.error "Failed to fetch categories"
    pages := fun _ _ _ => some []
    publishOk := fun _ _ => true
    fuel := 1 }

/-- Witness for C6: a concrete run whose catalog fetch throws
`Failed to fetch categories`. -/
theorem catalog_failure_aborts_run_witness :
    handleCalculatePrices envC6 =
      some ⟨false, [], some "Failed to fetch categories"⟩ :=
  catalog_failure_aborts_run envC6 "Failed to fetch categories" rfl

/-- C10: every outcome whose status is Failure records `averagePrice` 0,
whatever average had been computed before the publish attempt failed. -/
theorem failure_outcome_has_zero_average (env : Env) (sub : Subcategory)
    (r : CalculationResult)
    (h : processSubcategory env sub = some r)
    (herr : r.status = Status.error) :
    r.averagePrice = 0 := by
  unfold processSubcategory at h
  rw [Option.map_eq_some'] at h
  obtain ⟨a, _, hra⟩ := h
  subst hra
  revert herr
  simp only [subcategoryOutcome]
  split
  · intro hcon
    exact Status.noConfusion hcon
  · intro _
    rfl

def teacherC10 : Teacher := ⟨"t", [⟨"S", some 7⟩]⟩

def subC10 : Subcategory := ⟨"s", "S", 3⟩

def envC10 : Env :=
  { categories := Except.ok [⟨"c", "C", [subC10]⟩]
    pages := fun _ page _ => if page = 0 then some [teacherC10] else some []
    publishOk := fun _ _ => false
    fuel := 3 }

/-- Witness for C10: a pipeline that scans one teacher priced 7 (so a
non-zero average was computed) and whose publish call fails; its outcome
carries `averagePrice` 0. -/
theorem failure_outcome_has_zero_average_witness :
    processSubcategory envC10 subC10 =
      some ⟨"S", 0, Status.error, "Failed to post average price for S"⟩ ∧
    (⟨"S", 0, Status.error, "Failed to post average price for S"⟩ :
      CalculationResult).averagePrice = 0 :=
  ⟨rfl, failure_outcome_has_zero_average envC10 subC10 _ rfl rfl⟩

def mockPageService : PageService := fun page ps =>
  if ps = 10 then
    if page = 0 then some (List.replicate 10 ⟨"t", []⟩)
    else if page = 1 then some (List.replicate 10 ⟨"t", []⟩)
    else if page = 2 then some (List.replicate 3 ⟨"t", []⟩)
    else some []
  else none

/-- C3: the pager requests pages of the fixed size 10 from zero-based page
0 upward, appending non-empty batches and stopping on the empty batch;
on a service answering batches of sizes 10, 10, 3, 0 it returns exactly
23 listings after exactly 4 page requests.  (`mockPageService` only
answers the batches on page size 10, so the count also certifies the
requested page size.) -/
theorem pager_mocked_pages_23_listings_4_requests :
    pageSize = 10 ∧
    (fetchAllTeachersForCategory mockPageService 5).map
      (fun result => (result.1.length, result.2)) = some (23, 4) :=
  ⟨rfl, rfl⟩

def teacherC2 : Teacher := ⟨"n1", [⟨"X", some (-5)⟩]⟩

/-- C2 counterexample: the source checks only
`typeof pricePerHour === "number"`, with no sign check, so a listing whose
only matching entry is priced −5 contributes, and the computed average is
negative — contradicting both the non-negativity filter and the
never-negative average. -/
theorem negative_price_contributes_counterexample :
    aggregateTeachers [teacherC2] "X" = (-5, 1) ∧
    roundedAverage [teacherC2] "X" < 0 := by
  constructor
  · simp [aggregateTeachers, aggregateStep, teacherC2, List.find?]
  · simp [roundedAverage, aggregateTeachers, aggregateStep, teacherC2,
      List.find?, mathRound]
    norm_num

/-- C2 amended: the aggregator adds a listing's price to the running sum
and increments the contributing count exactly when the first category
entry matching the subcategory name (case-sensitive) has a price that is a
number — with no non-negativity requirement, so the computed average can
be negative when contributing prices are. -/
theorem aggregate_counts_exactly_number_prices
    (teachers : List Teacher) (subcategoryName : String) :
    aggregateTeachers teachers subcategoryName =
      ((teachers.filterMap (contributedPrice subcategoryName)).sum,
       (teachers.filterMap (contributedPrice subcategoryName)).length) := by
  simpa [aggregateTeachers] using aggregateStep_foldl subcategoryName teachers (0, 0)

def tC9a : Teacher := ⟨"a", [⟨"X", some 10⟩]⟩

def tC9b : Teacher := ⟨"b", [⟨"X", some 10⟩]⟩

def tC9c : Teacher := ⟨"c", [⟨"X", some (1001 / 100)⟩]⟩

/-- C9: with at least one contribution, the reported average is the
contributing sum divided by the count, multiplied by 100, rounded to the
nearest integer (half toward +∞, the `Math.round` rule), and divided by
100; in particular prices 10.00, 10.00, 10.01 average to 10.00. -/
theorem average_rounded_to_nearest_cent (teachers : List Teacher)
    (subName : String)
    (hpos : 0 < (aggregateTeachers teachers subName).2) :
    roundedAverage teachers subName =
      (⌊(aggregateTeachers teachers subName).1 /
          ((aggregateTeachers teachers subName).2 : ℚ) * 100 + 1 / 2⌋ : ℚ) /
        100 ∧
    roundedAverage [tC9a, tC9b, tC9c] "X" = 10 := by
  constructor
  · simp only [roundedAverage, mathRound]
    rw [if_pos hpos]
  · simp [roundedAverage, aggregateTeachers, aggregateStep, tC9a, tC9b, tC9c,
      List.find?, mathRound]
    norm_num

/-- Witness for C9: the three-listing example has a positive contributing
count and rounds to exactly 10. -/
theorem average_rounded_to_nearest_cent_witness :
    0 < (aggregateTeachers [tC9a, tC9b, tC9c] "X").2 ∧
    roundedAverage [tC9a, tC9b, tC9c] "X" = 10 :=
  ⟨by decide,
   (average_rounded_to_nearest_cent [tC9a, tC9b, tC9c] "X" (by decide)).2⟩

/-- C8: a subcategory whose scanned listings yield zero contributing
prices computes average 0, and when the publish call accepts the 0 it
produces a Success outcome — zero contributions is not an error. -/
theorem zero_contributions_average_zero_success (env : Env)
    (sub : Subcategory) (teachers : List Teacher) (requests : Nat)
    (hfetch : fetchAllTeachersForCategory (env.pages sub.code) env.fuel =
      some (teachers, requests))
    (hzero : (aggregateTeachers teachers sub.name).2 = 0)
    (hpub : env.publishOk sub.name 0 = true) :
    roundedAverage teachers sub.name = 0 ∧
    ∃ r, processSubcategory env sub = some r ∧
      r.status = Status.success ∧ r.averagePrice = 0 := by
  have havg : roundedAverage teachers sub.name = 0 := by
    simp only [roundedAverage, mathRound, hzero]
    norm_num
  refine ⟨havg, subcategoryOutcome env sub teachers, ?_, ?_, ?_⟩
  · unfold processSubcategory
    rw [hfetch]
    rfl
  · simp [subcategoryOutcome, havg, hpub]
  · simp [subcategoryOutcome, havg, hpub]

def subC8 : Subcategory := ⟨"s", "S", 3⟩

def envC8 : Env :=
  { categories := Except.ok [⟨"c", "C", [subC8]⟩]
    pages := fun _ _ _ => some []
    publishOk := fun _ _ => true
    fuel := 1 }

/-- Witness for C8: a subcategory whose only page is empty has zero
contributions, average 0, and a Success outcome. -/
theorem zero_contributions_average_zero_success_witness :
    (aggregateTeachers [] "S").2 = 0 ∧
    roundedAverage [] "S" = 0 ∧
    ∃ r, processSubcategory envC8 subC8 = some r ∧
      r.status = Status.success ∧ r.averagePrice = 0 := by
  have h := zero_contributions_average_zero_success envC8 subC8 [] 1 rfl rfl rfl
  exact ⟨rfl, h.1, h.2⟩

/-- C4: whenever some page eventually fails or comes back empty, the pager
terminates with a materialized finite list; and no a-priori bound on the
number of page requests exists — for every bound there is a service that
terminates only after more requests than that. -/
theorem pager_terminates_on_first_empty_or_failed_page (service : PageService)
    (h : ∃ k, service k pageSize = none ∨ service k pageSize = some []) :
    (∃ fuel result, fetchAllTeachersForCategory service fuel = some result) ∧
    (∀ bound : Nat, ∃ (service2 : PageService) (fuel : Nat)
        (result : List Teacher × Nat),
      fetchAllTeachersForCategory service2 fuel = some result ∧
      bound < result.2) := by
  constructor
  · obtain ⟨k, hk⟩ := h
    obtain ⟨r, hr⟩ := fetchLoop_terminates service k 0 [] 0 (by simpa using hk)
    exact ⟨k + 1, r, hr⟩
  · intro bound
    have hb := fetchLoop_eq_of_batches
      (fun p _ => if p < bound then some [(⟨"t", []⟩ : Teacher)] else some [])
      (List.replicate bound [(⟨"t", []⟩ : Teacher)]) 0 (bound + 1) [] 0
      (fun i hi => by
        have hib : i < bound := by simpa using hi
        refine ⟨?_, by simp [List.get_replicate]⟩
        simp [hib, List.get_replicate])
      (Or.inr (by simp))
      (by simp)
    exact ⟨_, bound + 1, _, hb, by simpa using Nat.lt_succ_self bound⟩

/-- Witness for C4: a service whose very first page is empty. -/
theorem pager_terminates_on_first_empty_or_failed_page_witness :
    (∃ fuel result,
      fetchAllTeachersForCategory (fun _ _ => some []) fuel = some result) ∧
    (∀ bound : Nat, ∃ (service2 : PageService) (fuel : Nat)
        (result : List Teacher × Nat),
      fetchAllTeachersForCategory service2 fuel = some result ∧
      bound < result.2) :=
  pager_terminates_on_first_empty_or_failed_page (fun _ _ => some [])
    ⟨0, Or.inr rfl⟩

/-- C5: when pages `0..k-1` succeed with non-empty batches and the request
for page `k` fails, the pager stops there and returns exactly the
accumulated listings from the earlier pages, as an ordinary (`some`)
result; and it is indistinguishable from a service whose page `k`
legitimately came back empty — nothing signals that the result is
partial. -/
theorem page_failure_returns_accumulated_partial (service : PageService)
    (bs : List (List Teacher))
    (hbs : ∀ i (hi : i < bs.length),
      service i pageSize = some (bs.get ⟨i, hi⟩) ∧ bs.get ⟨i, hi⟩ ≠ [])
    (hfail : service bs.length pageSize = none) :
    fetchAllTeachersForCategory service (bs.length + 1) =
      some (bs.flatten, bs.length + 1) ∧
    ∀ service2 : PageService,
      (∀ i (hi : i < bs.length), service2 i pageSize = service i pageSize) →
      service2 bs.length pageSize = some [] →
      fetchAllTeachersForCategory service2 (bs.length + 1) =
        some (bs.flatten, bs.length + 1) := by
  constructor
  · have hb := fetchLoop_eq_of_batches service bs 0 (bs.length + 1) [] 0
      (fun i hi => by simpa using hbs i hi)
      (Or.inl (by simpa using hfail))
      (Nat.lt_succ_self _)
    simpa [fetchAllTeachersForCategory] using hb
  · intro service2 hsame hempty
    have hb := fetchLoop_eq_of_batches service2 bs 0 (bs.length + 1) [] 0
      (fun i hi => by rw [Nat.zero_add, hsame i hi]; simpa using hbs i hi)
      (Or.inr (by simpa using hempty))
      (Nat.lt_succ_self _)
    simpa [fetchAllTeachersForCategory] using hb

def teacherC5 : Teacher := ⟨"w", []⟩

def serviceC5 : PageService := fun page _ =>
  if page = 0 then some [teacherC5] else none

/-- Witness for C5: one successful non-empty page, then a failed request;
the pager returns just that page's listing. -/
theorem page_failure_returns_accumulated_partial_witness :
    serviceC5 1 pageSize = none ∧
    fetchAllTeachersForCategory serviceC5 2 = some ([teacherC5], 2) := by
  have h := page_failure_returns_accumulated_partial serviceC5 [[teacherC5]]
    (fun i hi => by
      cases i with
      | zero => exact ⟨rfl, by simp⟩
      | succ n => exact absurd hi (by simp))
    rfl
  exact ⟨rfl, h.1⟩

/-- C1: a terminating run over a successfully fetched, non-empty catalog
produces exactly one outcome per subcategory of the flattened catalog, in
the flattened catalog's order — whatever each per-subcategory task did.
(When the flattened list is empty the run aborts with a message and the
result collection is empty, so the correspondence holds vacuously.) -/
theorem report_has_one_outcome_per_subcategory_in_order (env : Env)
    (cats : List Category) (st : AppState)
    (hcats : env.categories = Except.ok cats)
    (hne : cats ≠ [])
    (hrun : handleCalculatePrices env = some st) :
    st.results.map (fun r => r.categoryName) =
      (flattenSubcategories cats).map (fun s => s.name) := by
  by_cases hfl : flattenSubcategories cats = []
  · unfold handleCalculatePrices at hrun
    rw [hcats] at hrun
    have hc : cats.isEmpty = false := by
      cases cats with
      | nil => exact absurd rfl hne
      | cons c cs => rfl
    simp [hc, hfl] at hrun
    rw [← hrun]
    simp [hfl]
  · obtain ⟨rs, hset, hst⟩ := handleCalculatePrices_ok env cats st hcats hfl
      hrun
    subst hst
    exact settleAll_map_categoryName env (flattenSubcategories cats) rs hset

def catsC1 : List Category := [⟨"c1", "C1", [⟨"s1", "S1", 1⟩]⟩]

def envC1 : Env :=
  { categories := Except.ok catsC1
    pages := fun _ _ _ => some []
    publishOk := fun _ _ => false
    fuel := 1 }

def stC1 : AppState :=
  ⟨false, [⟨"S1", 0, Status.error, "Failed to post average price for S1"⟩],
    none⟩

/-- Witness for C1: a one-subcategory catalog whose (failing) pipeline
still yields exactly the one outcome, in order. -/
theorem report_has_one_outcome_per_subcategory_in_order_witness :
    catsC1 ≠ [] ∧ handleCalculatePrices envC1 = some stC1 ∧
    stC1.results.map (fun r => r.categoryName) =
      (flattenSubcategories catsC1).map (fun s => s.name) :=
  ⟨by simp [catsC1], rfl,
   report_has_one_outcome_per_subcategory_in_order envC1 catsC1 stC1 rfl
     (by simp [catsC1]) rfl⟩

/-- C7: in a terminating run where the publish call rejects exactly the
price computed for the `j`-th subcategory and accepts every other
subcategory's price, the stored results have one entry per subcategory;
the `j`-th is a Failure carrying the publish error's message, and every
other entry is a Success carrying its own computed average — the failure
does not alter any sibling's outcome. -/
theorem single_publish_failure_is_isolated (env : Env) (cats : List Category)
    (st : AppState) (j : Nat) (prices : Nat → ℚ)
    (hj : j < (flattenSubcategories cats).length)
    (hcats : env.categories = Except.ok cats)
    (hrun : handleCalculatePrices env = some st)
    (hprice : ∀ i (hi : i < (flattenSubcategories cats).length),
      publishedPrice env ((flattenSubcategories cats).get ⟨i, hi⟩) =
        some (prices i))
    (hfailj : env.publishOk ((flattenSubcategories cats).get ⟨j, hj⟩).name
      (prices j) = false)
    (hsucc : ∀ i (hi : i < (flattenSubcategories cats).length), i ≠ j →
      env.publishOk ((flattenSubcategories cats).get ⟨i, hi⟩).name
        (prices i) = true) :
    st.results.length = (flattenSubcategories cats).length ∧
    (∀ hj' : j < st.results.length,
      st.results.get ⟨j, hj'⟩ =
        ⟨((flattenSubcategories cats).get ⟨j, hj⟩).name, 0, Status.error,
          "Failed to post average price for " ++
            ((flattenSubcategories cats).get ⟨j, hj⟩).name⟩) ∧
    (∀ i (hi : i < (flattenSubcategories cats).length)
        (hi' : i < st.results.length), i ≠ j →
      (st.results.get ⟨i, hi'⟩).status = Status.success ∧
      (st.results.get ⟨i, hi'⟩).averagePrice = prices i) := by
  have hne : flattenSubcategories cats ≠ [] := by
    cases hfl : flattenSubcategories cats with
    | nil => rw [hfl] at hj; exact absurd hj (by simp)
    | cons a l => simp
  obtain ⟨rs, hset, hst⟩ := handleCalculatePrices_ok env cats st hcats hne hrun
  subst hst
  obtain ⟨hlen, hget⟩ := settleAll_get env (flattenSubcategories cats) rs hset
  refine ⟨hlen, ?_, ?_⟩
  · intro hj'
    exact (processSubcategory_char env _ (prices j) _ (hprice j hj)
      (hget j hj hj')).2 hfailj
  · intro i hi hi' hij
    exact (processSubcategory_char env _ (prices i) _ (hprice i hi)
      (hget i hi hi')).1 (hsucc i hi hij)

def catsC7 : List Category := [⟨"c1", "C1", [⟨"sa", "A", 1⟩, ⟨"sb", "B", 2⟩]⟩]

def envC7 : Env :=
  { categories := Except.ok catsC7
    pages := fun _ _ _ => some []
    publishOk := fun name _ => name != "A"
    fuel := 1 }

def pricesC7 : Nat → ℚ := fun i =>
  if i = 0 then roundedAverage [] "A" else roundedAverage [] "B"

/-- Witness for C7: two subcategories A and B where only A's publish call
fails; the run stores a Failure for A and a Success for B. -/
theorem single_publish_failure_is_isolated_witness :
    ∃ st, handleCalculatePrices envC7 = some st ∧
      (st.results.length = (flattenSubcategories catsC7).length ∧
       (∀ hj' : 0 < st.results.length,
         st.results.get ⟨0, hj'⟩ =
           ⟨"A", 0, Status.error, "Failed to post average price for A"⟩) ∧
       (∀ i (hi : i < (flattenSubcategories catsC7).length)
           (hi' : i < st.results.length), i ≠ 0 →
         (st.results.get ⟨i, hi'⟩).status = Status.success ∧
         (st.results.get ⟨i, hi'⟩).averagePrice = pricesC7 i)) := by
  obtain ⟨st, hst⟩ := Option.isSome_iff_exists.mp
    (show (handleCalculatePrices envC7).isSome = true from rfl)
  refine ⟨st, hst, ?_⟩
  exact single_publish_failure_is_isolated envC7 catsC7 st 0 pricesC7
    (by decide) rfl hst
    (fun i hi => by
      cases i with
      | zero => rfl
      | succ m =>
        cases m with
        | zero => rfl
        | succ n => exact absurd hi (by simp [flattenSubcategories, catsC7]))
    rfl
    (fun i hi hne => by
      cases i with
      | zero => exact absurd rfl hne
      | succ m =>
        cases m with
        | zero => rfl
        | succ n => exact absurd hi (by simp [flattenSubcategories, catsC7]))
